import Mathlib

/-!
Verification of the jot_potato_path_library progress-rollup engine,
path status state machine, context builder and response router, shallowly
embedded from `src/paths/models.py`, `src/paths/views.py` and
`src/paths/serializers.py`.

The plan hierarchy is Path → Phase → Step → ActionItem.  Django querysets
(`self.phases.all()` etc., ordered by the models' Meta ordering) are
embedded as the lists stored in the structures, in queryset order.
Timestamps and dates are embedded as integers (a day or instant ordinal).
Python evaluates `int((completed / total) * 100)` in IEEE binary64: the
quotient and the product are each rounded to 53 significant bits before
`int` truncates.  The rollup definitions below idealize that chain as
exact floor division `100 * completed / total` on `Nat`; `pyFloatPercent`
models the real double-rounding chain, which undershoots the exact floor
at some counts (28 instead of 29 at 29 done of 100 — see
`c1_float_rounding_divergence`).  The properties proved through the
idealized definitions compare the same function on both sides or depend
only on which leaves are counted, so they hold under either semantics.
-/

namespace JotPotato

/-- `ItemStatus` choices of `models.py` (for Phases, Steps and ActionItems). -/
inductive ItemStatus
  | todo
  | in_progress
  | blocked
  | done
deriving DecidableEq

/-- `PathStatus` choices of `models.py`. -/
inductive PathStatus
  | active
  | on_hold
  | completed
  | archived
deriving DecidableEq

/-- `ActionItem` model: the fields the verified operations read or write.
`due_date` and `completed_at` are nullable in the model. -/
structure ActionItem where
  id : Nat
  title : String
  status : ItemStatus
  due_date : Option Int
  completed_at : Option Int
  order : Nat
deriving DecidableEq

/-- `Step` model with its `action_items` related set (in queryset order). -/
structure Step where
  title : String
  status : ItemStatus
  order : Nat
  action_items : List ActionItem
deriving DecidableEq

/-- `Phase` model with its `steps` related set (in queryset order). -/
structure Phase where
  title : String
  status : ItemStatus
  order : Nat
  steps : List Step
deriving DecidableEq

/-- `Path` model: status, the timestamp fields written by
`PathViewSet.update_status`, the stored `progress_percentage`, and the
`phases` related set. -/
structure Path where
  title : String
  status : PathStatus
  started_at : Option Int
  paused_at : Option Int
  completed_at : Option Int
  progress_percentage : Nat
  phases : List Phase
deriving DecidableEq

/-- The predicate `status == ItemStatus.DONE` used by every
`filter(status=ItemStatus.DONE)` in `models.py`. -/
def isDoneItem (a : ActionItem) : Bool :=
  a.status == ItemStatus.done

/-- `Step.calculate_progress` (models.py 288-294): 0 for no items, else
`int((completed / items.count()) * 100)`, idealized here as the exact
floor; the program's binary64 arithmetic (`pyFloatPercent`) deviates at
some counts. -/
def Step.calculate_progress (s : Step) : Nat :=
  if s.action_items.isEmpty then 0
  else 100 * s.action_items.countP isDoneItem / s.action_items.length

/-- One iteration of the accumulation loops in `Path.calculate_progress`
and `Phase.calculate_progress` (models.py 206-210, 252-255):
`total_items += items.count(); completed_items += items.filter(done).count()`. -/
def stepTally (acc : Nat × Nat) (st : Step) : Nat × Nat :=
  (acc.1 + st.action_items.length, acc.2 + st.action_items.countP isDoneItem)

/-- `Phase.calculate_progress` (models.py 248-258): accumulate totals over
the phase's steps, then divide — the division idealized as the exact
floor, as in `Step.calculate_progress`. -/
def Phase.calculate_progress (ph : Phase) : Nat :=
  let acc := ph.steps.foldl stepTally (0, 0)
  if acc.1 = 0 then 0 else 100 * acc.2 / acc.1

/-- `Path.calculate_progress` (models.py 202-213): accumulate totals over
all steps of all phases, then divide — the division idealized as the
exact floor, as in `Step.calculate_progress`. -/
def Path.calculate_progress (p : Path) : Nat :=
  let acc := p.phases.foldl (fun acc ph => ph.steps.foldl stepTally acc) (0, 0)
  if acc.1 = 0 then 0 else 100 * acc.2 / acc.1

/-- `Path.update_progress` (models.py 215-218): persist the recomputed
percentage on the path. -/
def Path.update_progress (p : Path) : Path :=
  { p with progress_percentage := p.calculate_progress }

/-! Specification-side counting functions: the transitive leaf counts the
spec's §4.1 speaks about, defined independently of the accumulation loops. -/

/-- Number of action items directly under a step. -/
def Step.totalItems (s : Step) : Nat := s.action_items.length

/-- Number of `done` action items directly under a step. -/
def Step.doneItems (s : Step) : Nat := s.action_items.countP isDoneItem

/-- Number of transitive action items of a phase. -/
def Phase.totalItems (ph : Phase) : Nat := (ph.steps.map Step.totalItems).sum

/-- Number of transitive `done` action items of a phase. -/
def Phase.doneItems (ph : Phase) : Nat := (ph.steps.map Step.doneItems).sum

/-- Number of transitive action items of a path. -/
def Path.totalItems (p : Path) : Nat := (p.phases.map Phase.totalItems).sum

/-- Number of transitive `done` action items of a path. -/
def Path.doneItems (p : Path) : Nat := (p.phases.map Phase.doneItems).sum

/-- The rollup formula of spec §4.1: `floor(100 × done / total)` when
`total > 0`, else 0. -/
def rollupFormula (done total : Nat) : Nat :=
  if total = 0 then 0 else 100 * done / total

/-! Positional modification of the tree, used to state claims about editing
a single action item in place. -/

/-- Replace the element at position `n` by its image under `f`; out-of-range
positions leave the list unchanged. -/
def listModify (f : α → α) : Nat → List α → List α
  | _, [] => []
  | 0, x :: xs => f x :: xs
  | n + 1, x :: xs => x :: listModify f n xs

/-- Apply `f` to the action item at position `k` of a step. -/
def Step.modifyItemAt (st : Step) (k : Nat) (f : ActionItem → ActionItem) : Step :=
  { st with action_items := listModify f k st.action_items }

/-- Apply `f` to the action item at position `(j, k)` of a phase. -/
def Phase.modifyItemAt (ph : Phase) (j k : Nat) (f : ActionItem → ActionItem) : Phase :=
  { ph with steps := listModify (fun st => st.modifyItemAt k f) j ph.steps }

/-- Apply `f` to the action item at position `(i, j, k)` of the plan tree. -/
def Path.modifyItem (p : Path) (i j k : Nat) (f : ActionItem → ActionItem) : Path :=
  { p with phases := listModify (fun ph => ph.modifyItemAt j k f) i p.phases }

/-- Set an action item's status to `done`, holding everything else fixed. -/
def setDone (a : ActionItem) : ActionItem :=
  { a with status := ItemStatus.done }

/-- Transition the action item at `(i, j, k)` to status `done`, holding
everything else fixed. -/
def Path.markItemDone (p : Path) (i j k : Nat) : Path :=
  p.modifyItem i j k setDone

/-- The action item at position `(i, j, k)`, if any. -/
def Path.itemAt (p : Path) (i j k : Nat) : Option ActionItem :=
  (p.phases.get? i).bind fun ph => (ph.steps.get? j).bind fun st =>
    st.action_items.get? k

/-- The rollup percentage of the phase at index `i` (0 when out of range). -/
def Path.phaseProgressAt (p : Path) (i : Nat) : Nat :=
  ((p.phases.get? i).map Phase.calculate_progress).getD 0

/-- The rollup percentage of the step at `(i, j)` (0 when out of range). -/
def Path.stepProgressAt (p : Path) (i j : Nat) : Nat :=
  (((p.phases.get? i).bind fun ph => ph.steps.get? j).map
    Step.calculate_progress).getD 0

/-! Projections that forget everything except action-item statuses, used to
state that the rollup reads only action items, never container statuses. -/

/-- The statuses of a step's action items, in order. -/
def Step.itemStatuses (st : Step) : List ItemStatus :=
  st.action_items.map ActionItem.status

/-- The statuses of a phase's transitive action items, step by step. -/
def Phase.itemStatusTree (ph : Phase) : List (List ItemStatus) :=
  ph.steps.map Step.itemStatuses

/-- The statuses of a path's transitive action items, phase by phase. -/
def Path.itemStatusTree (p : Path) : List (List (List ItemStatus)) :=
  p.phases.map Phase.itemStatusTree

/-- `done` count of a bare status list. -/
def statusDone (l : List ItemStatus) : Nat :=
  l.countP (fun s => s == ItemStatus.done)

/-- Total leaf count of a phase-shaped status tree. -/
def treeTotal2 (t : List (List ItemStatus)) : Nat := (t.map List.length).sum

/-- `done` leaf count of a phase-shaped status tree. -/
def treeDone2 (t : List (List ItemStatus)) : Nat := (t.map statusDone).sum

/-- Total leaf count of a path-shaped status tree. -/
def treeTotal3 (t : List (List (List ItemStatus))) : Nat := (t.map treeTotal2).sum

/-- `done` leaf count of a path-shaped status tree. -/
def treeDone3 (t : List (List (List ItemStatus))) : Nat := (t.map treeDone2).sum

/-! Path status state machine: `PathViewSet.update_status` (views.py
100-123) and `PathStatusUpdateSerializer` (serializers.py 243-250). -/

/-- The timestamp logic of `PathViewSet.update_status` (views.py 107-122)
applied to the in-memory path, with `now` standing for `timezone.now()`:
save the old status, assign the new one, then stamp or clear timestamps. -/
def applyStatusUpdate (p : Path) (new : PathStatus) (now : Int) : Path :=
  let old := p.status
  let p1 := { p with status := new }
  if new = PathStatus.active ∧ old ≠ PathStatus.active then
    { p1 with
      started_at := (match p1.started_at with | none => some now | some t => some t)
      paused_at := none }
  else if new = PathStatus.on_hold then { p1 with paused_at := some now }
  else if new = PathStatus.completed then { p1 with completed_at := some now }
  else p1

/-- The side effects exactly as claim C4 words them: entering `active`
stamps `started_at` only when it was unset and clears `paused_at` only when
coming from `on_hold`; `on_hold` stamps `paused_at`; `completed` stamps
`completed_at`; `archived` changes no timestamp; every transition is
permitted from every state. -/
def claimedStatusUpdate (p : Path) (new : PathStatus) (now : Int) : Path :=
  let old := p.status
  let p1 := { p with status := new }
  match new with
  | PathStatus.active =>
    { p1 with
      started_at := (match p1.started_at with | none => some now | some t => some t)
      paused_at := if old = PathStatus.on_hold then none else p1.paused_at }
  | PathStatus.on_hold => { p1 with paused_at := some now }
  | PathStatus.completed => { p1 with completed_at := some now }
  | PathStatus.archived => p1

/-- The amended C4 side effects: a request re-entering the current `active`
status changes no timestamp; entering `active` from any other status stamps
`started_at` when unset and clears `paused_at` whatever the previous status
was; `on_hold` stamps `paused_at`; `completed` stamps `completed_at`;
`archived` changes no timestamp. -/
def amendedStatusUpdate (p : Path) (new : PathStatus) (now : Int) : Path :=
  let old := p.status
  let p1 := { p with status := new }
  match new with
  | PathStatus.active =>
    if old = PathStatus.active then p1
    else
      { p1 with
        started_at := (match p1.started_at with | none => some now | some t => some t)
        paused_at := none }
  | PathStatus.on_hold => { p1 with paused_at := some now }
  | PathStatus.completed => { p1 with completed_at := some now }
  | PathStatus.archived => p1

/-- `PathStatusUpdateSerializer` (serializers.py 243-250): the closed
choice enumeration for the requested status; anything else fails
validation. -/
def parsePathStatus (s : String) : Option PathStatus :=
  if s = "active" then some PathStatus.active
  else if s = "on_hold" then some PathStatus.on_hold
  else if s = "completed" then some PathStatus.completed
  else if s = "archived" then some PathStatus.archived
  else none

/-- The whole `update_status` endpoint: `is_valid(raise_exception=True)`
aborts before any mutation on a bad status, so the stored path is returned
unchanged with no response payload; otherwise the update is applied and
saved.  Result: (response payload if any, stored path after the call). -/
def update_status_endpoint (p : Path) (raw : String) (now : Int) :
    Option Path × Path :=
  match parsePathStatus raw with
  | none => (none, p)
  | some st =>
    let p2 := applyStatusUpdate p st now
    (some p2, p2)

/-! Action-item status operations: `ActionItemViewSet` (views.py 958-984)
and `ActionItemSerializer` (serializers.py 9-19). -/

/-- `ActionItemViewSet.toggle_status` (views.py 958-969): flip between
`todo` and `done`, stamping or clearing `completed_at`. -/
def ActionItem.toggle_status (a : ActionItem) (now : Int) : ActionItem :=
  if a.status = ItemStatus.done then
    { a with status := ItemStatus.todo, completed_at := none }
  else
    { a with status := ItemStatus.done, completed_at := some now }

/-- `ActionItemViewSet.update_status` (views.py 971-984): set the validated
status, stamping `completed_at` for `done` and clearing it otherwise. -/
def ActionItem.update_status (a : ActionItem) (st : ItemStatus) (now : Int) :
    ActionItem :=
  let a1 := { a with status := st }
  if a1.status = ItemStatus.done then { a1 with completed_at := some now }
  else { a1 with completed_at := none }

/-- The write path of `ActionItemSerializer` (serializers.py 9-19) on
create: `status` and `completed_at` are both plain writable fields, stored
exactly as the client sent them, with no cross-field stamping. -/
def actionItemSerializerCreate (id : Nat) (title : String) (st : ItemStatus)
    (completed : Option Int) (due : Option Int) (ord : Nat) : ActionItem :=
  { id := id, title := title, status := st, due_date := due,
    completed_at := completed, order := ord }

/-- The §3 invariant claim C8 asserts: `completed_at` is set iff the status
is `done`. -/
def completedAtConsistent (a : ActionItem) : Prop :=
  a.completed_at.isSome ↔ a.status = ItemStatus.done

/-! Leaf create/update/delete as seen from the owning path (claim C2). -/

/-- Apply `f` to the step at position `(i, j)` of the plan tree. -/
def Path.modifyStepAt (p : Path) (i j : Nat) (f : Step → Step) : Path :=
  { p with phases := listModify (fun ph =>
      { ph with steps := listModify f j ph.steps }) i p.phases }

/-- Creating an action item under step `(i, j)`: the serializer saves the
new row, `ActionItem.save` (models.py 331-335) then recomputes and persists
the owning path's percentage before the call returns. -/
def createActionItem (p : Path) (i j : Nat) (a : ActionItem) : Path :=
  (p.modifyStepAt i j fun st =>
    { st with action_items := st.action_items ++ [a] }).update_progress

/-- Updating the action item at `(i, j, k)`: the serializer applies the
changes and saves, and `ActionItem.save` recomputes and persists the
percentage. -/
def updateActionItem (p : Path) (i j k : Nat) (f : ActionItem → ActionItem) :
    Path :=
  (p.modifyItem i j k f).update_progress

/-- Deleting the action item at `(i, j, k)`: `ModelViewSet.destroy` calls
`instance.delete()`, and `ActionItem` overrides only `save` (models.py
331-335), so no rollup runs and the stored percentage is untouched. -/
def deleteActionItem (p : Path) (i j k : Nat) : Path :=
  p.modifyStepAt i j fun st =>
    { st with action_items := st.action_items.eraseIdx k }

/-! The bulk status update of claim C9. -/

/-- All action items of a path in traversal order. -/
def Path.allActionItems (p : Path) : List ActionItem :=
  p.phases.flatMap fun ph => ph.steps.flatMap Step.action_items

/-- The per-item effect of the bulk update: addressed items get the target
status and its `completed_at` side effect, all others stay untouched. -/
def bulkApplyOne (ids : List Nat) (st : ItemStatus) (now : Int)
    (a : ActionItem) : ActionItem :=
  if ids.contains a.id then
    { a with
      status := st
      completed_at := if st = ItemStatus.done then some now else none }
  else a

/-- The bulk update applied to one step's item list. -/
def bulkApplyStep (ids : List Nat) (st : ItemStatus) (now : Int)
    (stp : Step) : Step :=
  { stp with action_items := stp.action_items.map (bulkApplyOne ids st now) }

/-- The bulk update applied to one phase. -/
def bulkApplyPhase (ids : List Nat) (st : ItemStatus) (now : Int)
    (ph : Phase) : Phase :=
  { ph with steps := ph.steps.map (bulkApplyStep ids st now) }

/-- Modelled from the spec: `views.py` contains no bulk status update
action, only the single-item `toggle_status` and `update_status`, so the
bulk operation of spec §6 is modelled from the spec's words: given a list
of leaf identifiers and a target status, apply the status (with its
`completed_at` side effect) to exactly those of the path's own leaves whose
id is listed, silently ignoring identifiers outside the path, then run one
rollup; return the count actually updated and the new percentage, together
with the stored path. -/
def bulkUpdateActionItemStatus (p : Path) (ids : List Nat) (st : ItemStatus)
    (now : Int) : (Nat × Nat) × Path :=
  let p1 := { p with phases := p.phases.map (bulkApplyPhase ids st now) }
  let p2 := p1.update_progress
  ((p.allActionItems.countP fun a => ids.contains a.id, p2.progress_percentage), p2)

/-! Context builder: the overdue / upcoming classification of
`PathViewSet._build_path_context` (views.py 296-314). -/

/-- The guard at views.py 296: `item.due_date and item.status != DONE`. -/
def isOpenWithDueDate (a : ActionItem) : Bool :=
  a.due_date.isSome && !(a.status == ItemStatus.done)

/-- The overdue test (views.py 297): additionally `due_date < today`. -/
def isOverdueItem (today : Int) (a : ActionItem) : Bool :=
  isOpenWithDueDate a &&
    (match a.due_date with
     | some d => decide (d < today)
     | none => false)

/-- `context['overdue_actions']` (views.py 296-298), in traversal order. -/
def contextOverdue (p : Path) (today : Int) : List ActionItem :=
  p.allActionItems.filter (isOverdueItem today)

/-- `context['upcoming_due']` before sorting (views.py 296-299). -/
def contextUpcomingUnsorted (p : Path) : List ActionItem :=
  p.allActionItems.filter isOpenWithDueDate

/-- The sort key at views.py 313: the due date, `today + 9999` for a
missing one. -/
def dueKey (today : Int) (a : ActionItem) : Int :=
  a.due_date.getD (today + 9999)

/-- `context['upcoming_due']` after the ascending stable sort by due date
(views.py 313). -/
def contextUpcoming (p : Path) (today : Int) : List ActionItem :=
  (contextUpcomingUnsorted p).mergeSort
    fun a b => decide (dueKey today a ≤ dueKey today b)

/-! Response router: `PathViewSet._generate_ai_response` (views.py
318-383), with each rendering helper abstracted to its template name. -/

/-- One value per canned analysis template of views.py 385-922. -/
inductive ResponseCategory
  | statusOverview
  | blockers
  | deadlines
  | accomplishments
  | team
  | phasesReport
  | stepsReport
  | timeline
  | goal
  | issueChain
  | successFactors
  | improvements
  | onHold
  | learnings
  | fullSummary
  | defaultResponse
deriving DecidableEq

/-- Python's `word in query`: substring containment on the character
list. -/
def containsWord (query w : String) : Bool :=
  go w.data query.data
where
  /-- Does `w` occur as a contiguous run inside `l`? -/
  go (w l : List Char) : Bool :=
    match l with
    | [] => w.isEmpty
    | _ :: rest => w.isPrefixOf l || go w rest

/-- `any(word in query for word in [...])` (views.py 323 etc.). -/
def matchesAny (query : String) (ws : List String) : Bool :=
  ws.any (containsWord query)

/-- The keyword dispatch chain of `_generate_ai_response` (views.py
318-383) on the already case-folded query: the first matching category's
template is returned, the default template when none matches. -/
def generate_ai_response (query : String) : ResponseCategory :=
  if matchesAny query ["status", "progress", "overview", "how", "doing", "going"] then
    ResponseCategory.statusOverview
  else if matchesAny query ["block", "issue", "problem", "stuck", "risk", "challenge"] then
    ResponseCategory.blockers
  else if matchesAny query ["due", "deadline", "upcoming", "soon", "overdue", "late"] then
    ResponseCategory.deadlines
  else if matchesAny query ["accomplish", "done", "complete", "finish", "solved", "achieve", "success"] then
    ResponseCategory.accomplishments
  else if matchesAny query ["team", "who", "assignee", "member", "person", "people", "workload"] then
    ResponseCategory.team
  else if matchesAny query ["phase", "stage", "plan", "implementation"] then
    ResponseCategory.phasesReport
  else if matchesAny query ["step", "task", "action", "activity"] then
    ResponseCategory.stepsReport
  else if matchesAny query ["timeline", "duration", "time", "long", "start", "end", "when"] then
    ResponseCategory.timeline
  else if matchesAny query ["goal", "purpose", "why", "objective", "aim", "target"] then
    ResponseCategory.goal
  else if matchesAny query ["issue", "root", "cause", "initiative", "origin", "source", "feedback"] then
    ResponseCategory.issueChain
  else if matchesAny query ["success", "factor", "key", "critical", "important"] then
    ResponseCategory.successFactors
  else if matchesAny query ["improve", "better", "recommend", "suggest", "advice", "help", "optimize"] then
    ResponseCategory.improvements
  else if matchesAny query ["hold", "pause", "stop", "wait", "delay"] then
    ResponseCategory.onHold
  else if matchesAny query ["learn", "insight", "takeaway", "lesson"] then
    ResponseCategory.learnings
  else if matchesAny query ["summary", "everything", "all", "full", "detail", "tell me about"] then
    ResponseCategory.fullSummary
  else
    ResponseCategory.defaultResponse

/-- `ai_query` (views.py 155-170): the raw query is case-folded with
`.lower()` before dispatch. -/
def ai_query_route (raw : String) : ResponseCategory :=
  generate_ai_response raw.toLower

/-- The category declaration order exactly as claim C5 lists it, each with
its keyword set from views.py 318-383. -/
def keywordCategories : List (ResponseCategory × List String) :=
  [(ResponseCategory.statusOverview, ["status", "progress", "overview", "how", "doing", "going"]),
   (ResponseCategory.blockers, ["block", "issue", "problem", "stuck", "risk", "challenge"]),
   (ResponseCategory.deadlines, ["due", "deadline", "upcoming", "soon", "overdue", "late"]),
   (ResponseCategory.accomplishments, ["accomplish", "done", "complete", "finish", "solved", "achieve", "success"]),
   (ResponseCategory.team, ["team", "who", "assignee", "member", "person", "people", "workload"]),
   (ResponseCategory.phasesReport, ["phase", "stage", "plan", "implementation"]),
   (ResponseCategory.stepsReport, ["step", "task", "action", "activity"]),
   (ResponseCategory.timeline, ["timeline", "duration", "time", "long", "start", "end", "when"]),
   (ResponseCategory.goal, ["goal", "purpose", "why", "objective", "aim", "target"]),
   (ResponseCategory.issueChain, ["issue", "root", "cause", "initiative", "origin", "source", "feedback"]),
   (ResponseCategory.successFactors, ["success", "factor", "key", "critical", "important"]),
   (ResponseCategory.improvements, ["improve", "better", "recommend", "suggest", "advice", "help", "optimize"]),
   (ResponseCategory.onHold, ["hold", "pause", "stop", "wait", "delay"]),
   (ResponseCategory.learnings, ["learn", "insight", "takeaway", "lesson"]),
   (ResponseCategory.fullSummary, ["summary", "everything", "all", "full", "detail", "tell me about"])]

/-- First-match routing as the spec words it: walk the declared categories
in order and return the first whose keyword set intersects the query; the
default template when none matches. -/
def firstMatchingCategory (query : String) :
    List (ResponseCategory × List String) → ResponseCategory
  | [] => ResponseCategory.defaultResponse
  | (c, ws) :: rest =>
    if matchesAny query ws then c else firstMatchingCategory query rest

/-! The program's actual arithmetic for claim C1: CPython runs
`int((completed / total) * 100)` in IEEE binary64, so the true quotient
and the product by 100 are each rounded to a 53-bit significand (round to
nearest, ties to even) before `int` truncates toward zero.  The model
below reproduces that chain exactly for `c ≤ t` (the only shape the
counters produce), writing every intermediate as an integer significand
times a power of two; it agrees with CPython on every pair `c ≤ t ≤ 500`
and with the spot checks proved further down. -/

/-- Round the fraction `a / b` (for `b > 0`) to the nearest integer, ties
to even — one binary64 rounding step at a fixed scale. -/
def roundHalfEvenDiv (a b : Nat) : Nat :=
  let q := a / b
  let r := a % b
  if 2 * r < b then q
  else if b < 2 * r then q + 1
  else if q % 2 = 0 then q else q + 1

/-- Smallest `s` with `t ≤ c * 2 ^ s`, by fuelled doubling: for
`1 ≤ c ≤ t` the quotient `c / t` then lies in the binade
`[2 ^ (-s), 2 ^ (1 - s))`. -/
def fracScale (c t : Nat) : Nat → Nat
  | 0 => 0
  | fuel + 1 => if t ≤ c then 0 else fracScale (2 * c) t fuel + 1

/-- `⌊log₂ a⌋` by fuelled halving (0 for `a ≤ 1`). -/
def floorLog2 (a : Nat) : Nat → Nat
  | 0 => 0
  | fuel + 1 => if a ≤ 1 then 0 else floorLog2 (a / 2) fuel + 1

/-- `int((c / t) * 100)` as CPython evaluates it in IEEE binary64, for
`c ≤ t` and `t > 0`: the quotient `c / t` is rounded to the 53-bit
significand `m1` (value `m1 / 2 ^ (52 + s)`), the product with 100
(exactly `a2 / 2 ^ (52 + s)`) is rounded again to the 53-bit significand
`m2` (value `m2 / 2 ^ (104 + s - L)`), and `int` truncates toward zero. -/
def pyFloatPercent (c t : Nat) : Nat :=
  if c = 0 then 0
  else
    let s := fracScale c t t
    let m1 := roundHalfEvenDiv (c * 2 ^ (52 + s)) t
    let a2 := 100 * m1
    let L := floorLog2 a2 a2
    let m2 := roundHalfEvenDiv a2 (2 ^ (L - 52))
    m2 / 2 ^ (104 + s - L)

/-! Concrete fixtures used by witnesses and counterexamples. -/

/-- A path whose `paused_at` survived an `on_hold → completed` transition
(reachable: `on_hold` stamps `paused_at`, `completed` does not clear it). -/
def pathCompletedPaused : Path :=
  { title := "paused then completed", status := PathStatus.completed,
    started_at := some 1, paused_at := some 5, completed_at := some 8,
    progress_percentage := 0, phases := [] }

/-- An open item due yesterday (relative to the fixture day 100). -/
def itemDueYesterdayTodo : ActionItem :=
  { id := 11, title := "call vendor", status := ItemStatus.todo,
    due_date := some 99, completed_at := none, order := 0 }

/-- A done item due yesterday (relative to the fixture day 100). -/
def itemDueYesterdayDone : ActionItem :=
  { id := 12, title := "email vendor", status := ItemStatus.done,
    due_date := some 99, completed_at := some 99, order := 1 }

/-- A step holding both due-yesterday items. -/
def stepDueFix : Step :=
  { title := "outreach", status := ItemStatus.in_progress, order := 0,
    action_items := [itemDueYesterdayTodo, itemDueYesterdayDone] }

/-- A path for the context-builder example. -/
def pathDueFix : Path :=
  { title := "deadline fixture", status := PathStatus.active,
    started_at := some 0, paused_at := none, completed_at := none,
    progress_percentage := 50,
    phases := [{ title := "outreach phase", status := ItemStatus.in_progress,
                 order := 0, steps := [stepDueFix] }] }

/-- Three todo items with ids 1, 2 and 4 for the bulk-update example. -/
def stepBulk : Step :=
  { title := "bulk step", status := ItemStatus.todo, order := 0,
    action_items :=
      [{ id := 1, title := "one", status := ItemStatus.todo,
         due_date := none, completed_at := none, order := 0 },
       { id := 2, title := "two", status := ItemStatus.todo,
         due_date := none, completed_at := none, order := 1 },
       { id := 4, title := "four", status := ItemStatus.todo,
         due_date := none, completed_at := none, order := 2 }] }

/-- A path for the bulk-update example: requesting ids 1, 2 and 99 must
update exactly two of its three leaves. -/
def pathBulk : Path :=
  { title := "bulk fixture", status := PathStatus.active, started_at := some 0,
    paused_at := none, completed_at := none, progress_percentage := 0,
    phases := [{ title := "bulk phase", status := ItemStatus.todo, order := 0,
                 steps := [stepBulk] }] }

/-- A not-yet-done action item. -/
def itemTodo1 : ActionItem :=
  { id := 1, title := "write survey", status := ItemStatus.todo,
    due_date := none, completed_at := none, order := 1 }

/-- A completed action item. -/
def itemDone2 : ActionItem :=
  { id := 2, title := "pick vendors", status := ItemStatus.done,
    due_date := none, completed_at := some 4, order := 0 }

/-- A step with 100 action items of which 29 are done: a realizable shape
on which the program's float arithmetic undershoots the exact floor. -/
def stepHundred : Step :=
  { title := "hundred", status := ItemStatus.in_progress, order := 0,
    action_items := List.replicate 29 itemDone2 ++ List.replicate 71 itemTodo1 }

/-- A path holding `stepHundred` (29 of 100 items done). -/
def pathHundred : Path :=
  { title := "hundred path", status := PathStatus.active, started_at := some 0,
    paused_at := none, completed_at := none, progress_percentage := 29,
    phases := [{ title := "hundred phase", status := ItemStatus.in_progress,
                 order := 0, steps := [stepHundred] }] }

/-- A step holding one done and one todo item. -/
def stepFix : Step :=
  { title := "research", status := ItemStatus.in_progress, order := 0,
    action_items := [itemDone2, itemTodo1] }

/-- A phase holding `stepFix`. -/
def phaseFix : Phase :=
  { title := "planning", status := ItemStatus.in_progress, order := 0,
    steps := [stepFix] }

/-- A path with one done item out of two, and the matching stored 50%. -/
def pathFix : Path :=
  { title := "improve", status := PathStatus.active, started_at := some 0,
    paused_at := none, completed_at := none, progress_percentage := 50,
    phases := [phaseFix] }

/-- `stepFix` with its container status replaced, action items untouched. -/
def stepFixRelabelled : Step :=
  { stepFix with status := ItemStatus.blocked }

/-- `phaseFix` with container statuses replaced, action items untouched. -/
def phaseFixRelabelled : Phase :=
  { phaseFix with status := ItemStatus.done, steps := [stepFixRelabelled] }

/-- `pathFix` with every Phase and Step status replaced, action items
untouched. -/
def pathFixRelabelled : Path :=
  { pathFix with phases := [phaseFixRelabelled] }

/-! ## Theorems -/

theorem foldl_stepTally (l : List Step) (a b : Nat) :
    l.foldl stepTally (a, b)
      = (a + (l.map Step.totalItems).sum, b + (l.map Step.doneItems).sum) := by
  induction l generalizing a b with
  | nil => simp
  | cons s t ih =>
    simp [stepTally, ih, Step.totalItems, Step.doneItems, Nat.add_assoc]

theorem foldl_phaseTally (l : List Phase) (a b : Nat) :
    l.foldl (fun acc ph => ph.steps.foldl stepTally acc) (a, b)
      = (a + (l.map Phase.totalItems).sum, b + (l.map Phase.doneItems).sum) := by
  induction l generalizing a b with
  | nil => simp
  | cons ph t ih =>
    simp only [List.foldl_cons, foldl_stepTally, ih, List.map_cons, List.sum_cons]
    simp [Phase.totalItems, Phase.doneItems, Nat.add_assoc]

theorem step_progress_eq_counts (s : Step) :
    s.calculate_progress = rollupFormula s.doneItems s.totalItems := by
  unfold Step.calculate_progress rollupFormula Step.doneItems Step.totalItems
  cases s.action_items <;> simp

theorem phase_progress_eq_counts (ph : Phase) :
    ph.calculate_progress = rollupFormula ph.doneItems ph.totalItems := by
  unfold Phase.calculate_progress rollupFormula Phase.doneItems Phase.totalItems
  rw [foldl_stepTally]
  simp

theorem path_progress_eq_counts (p : Path) :
    p.calculate_progress = rollupFormula p.doneItems p.totalItems := by
  unfold Path.calculate_progress rollupFormula Path.doneItems Path.totalItems
  rw [foldl_phaseTally]
  simp

theorem rollupFormula_le_100 {d t : Nat} (h : d ≤ t) : rollupFormula d t ≤ 100 := by
  unfold rollupFormula
  split
  · exact Nat.zero_le _
  · rename_i ht
    calc 100 * d / t ≤ 100 * t / t :=
          Nat.div_le_div_right (Nat.mul_le_mul_left 100 h)
      _ = 100 := Nat.mul_div_cancel 100 (Nat.pos_of_ne_zero ht)

theorem step_done_le_total (s : Step) : s.doneItems ≤ s.totalItems := by
  unfold Step.doneItems Step.totalItems
  exact List.countP_le_length isDoneItem

theorem phase_done_le_total (ph : Phase) : ph.doneItems ≤ ph.totalItems :=
  List.sum_le_sum fun s _ => step_done_le_total s

theorem path_done_le_total (p : Path) : p.doneItems ≤ p.totalItems :=
  List.sum_le_sum fun ph _ => phase_done_le_total ph

/-- C1 (code bug): on a container with 29 of its 100 action items done
the program's own arithmetic — `int((29 / 100) * 100)` evaluated in IEEE
binary64, reproduced exactly by `pyFloatPercent` — returns 28, while the
claimed (and spec-mandated) `floor(100 × 29 / 100)` is 29.  The counts
come from the fixture tree, and the idealized `calculate_progress`
returns the exact floor 29 there. -/
theorem c1_float_rounding_divergence :
    pathHundred.doneItems = 29
    ∧ pathHundred.totalItems = 100
    ∧ pyFloatPercent 29 100 = 28
    ∧ rollupFormula 29 100 = 29
    ∧ pyFloatPercent 29 100 ≠ rollupFormula 29 100
    ∧ pathHundred.calculate_progress = 29 := by
  refine ⟨by decide, by decide, by decide, by decide, by decide, by decide⟩

/-! Lemmas about `listModify`. -/

theorem listModify_length (f : α → α) (n : Nat) (l : List α) :
    (listModify f n l).length = l.length := by
  induction l generalizing n with
  | nil => cases n <;> rfl
  | cons x xs ih =>
    cases n with
    | zero => rfl
    | succ m => simp [listModify, ih]

theorem get?_listModify_self (f : α → α) (n : Nat) (l : List α) :
    (listModify f n l).get? n = (l.get? n).map f := by
  induction l generalizing n with
  | nil => cases n <;> rfl
  | cons x xs ih =>
    cases n with
    | zero => rfl
    | succ m => simpa [listModify] using ih m

theorem countP_listModify (q : α → Bool) (f : α → α) (n : Nat) (l : List α) (x : α)
    (h : l.get? n = some x) :
    (listModify f n l).countP q + (if q x then 1 else 0)
      = l.countP q + (if q (f x) then 1 else 0) := by
  induction l generalizing n with
  | nil => simp at h
  | cons y ys ih =>
    cases n with
    | zero =>
      simp only [List.get?_cons_zero, Option.some.injEq] at h
      subst h
      cases hq : q y <;> cases hqf : q (f y) <;>
        simp [listModify, List.countP_cons, hq, hqf]
    | succ m =>
      simp only [List.get?_cons_succ] at h
      have hrec := ih m h
      cases hy : q y <;>
        simp only [listModify, List.countP_cons, hy] <;> omega

theorem map_sum_listModify (F : α → Nat) (f : α → α) (n : Nat) (l : List α) (x : α)
    (h : l.get? n = some x) :
    ((listModify f n l).map F).sum + F x = (l.map F).sum + F (f x) := by
  induction l generalizing n with
  | nil => simp at h
  | cons y ys ih =>
    cases n with
    | zero =>
      simp only [List.get?_cons_zero, Option.some.injEq] at h
      subst h
      simp [listModify]
      omega
    | succ m =>
      simp only [List.get?_cons_succ] at h
      have hrec := ih m h
      simp only [listModify, List.map_cons, List.sum_cons]
      omega

/-! Count lemmas for a single in-place `setDone` edit. -/

theorem step_total_modifyItemAt (st : Step) (k : Nat) (f : ActionItem → ActionItem) :
    (st.modifyItemAt k f).totalItems = st.totalItems := by
  simp [Step.modifyItemAt, Step.totalItems, listModify_length]

theorem step_done_modifyItemAt_setDone (st : Step) (k : Nat) (a : ActionItem)
    (h : st.action_items.get? k = some a) (hnd : a.status ≠ ItemStatus.done) :
    (st.modifyItemAt k setDone).doneItems = st.doneItems + 1 := by
  have hc := countP_listModify isDoneItem setDone k st.action_items a h
  have h1 : isDoneItem a = false := by simp [isDoneItem, hnd]
  have h2 : isDoneItem (setDone a) = true := by simp [isDoneItem, setDone]
  rw [h1, h2] at hc
  simp at hc
  simp only [Step.modifyItemAt, Step.doneItems]
  omega

theorem phase_total_modifyItemAt (ph : Phase) (j k : Nat)
    (f : ActionItem → ActionItem) (st : Step) (h : ph.steps.get? j = some st) :
    (ph.modifyItemAt j k f).totalItems = ph.totalItems := by
  have hsum := map_sum_listModify Step.totalItems
    (fun st => st.modifyItemAt k f) j ph.steps st h
  rw [step_total_modifyItemAt] at hsum
  simp only [Phase.modifyItemAt, Phase.totalItems]
  omega

theorem phase_done_modifyItemAt_setDone (ph : Phase) (j k : Nat) (st : Step)
    (a : ActionItem) (hst : ph.steps.get? j = some st)
    (hit : st.action_items.get? k = some a) (hnd : a.status ≠ ItemStatus.done) :
    (ph.modifyItemAt j k setDone).doneItems = ph.doneItems + 1 := by
  have hsum := map_sum_listModify Step.doneItems
    (fun st => st.modifyItemAt k setDone) j ph.steps st hst
  rw [step_done_modifyItemAt_setDone st k a hit hnd] at hsum
  simp only [Phase.modifyItemAt, Phase.doneItems]
  omega

theorem Path.totalItems_markItemDone (p : Path) (i j k : Nat) (ph : Phase) (st : Step)
    (hph : p.phases.get? i = some ph) (hst : ph.steps.get? j = some st) :
    (p.markItemDone i j k).totalItems = p.totalItems := by
  have hsum := map_sum_listModify Phase.totalItems
    (fun ph => ph.modifyItemAt j k setDone) i p.phases ph hph
  rw [phase_total_modifyItemAt ph j k setDone st hst] at hsum
  simp only [Path.markItemDone, Path.modifyItem, Path.totalItems]
  omega

theorem Path.doneItems_markItemDone (p : Path) (i j k : Nat) (ph : Phase) (st : Step)
    (a : ActionItem) (hph : p.phases.get? i = some ph)
    (hst : ph.steps.get? j = some st) (hit : st.action_items.get? k = some a)
    (hnd : a.status ≠ ItemStatus.done) :
    (p.markItemDone i j k).doneItems = p.doneItems + 1 := by
  have hsum := map_sum_listModify Phase.doneItems
    (fun ph => ph.modifyItemAt j k setDone) i p.phases ph hph
  rw [phase_done_modifyItemAt_setDone ph j k st a hst hit hnd] at hsum
  simp only [Path.markItemDone, Path.modifyItem, Path.doneItems]
  omega

theorem rollupFormula_mono_done (d t : Nat) :
    rollupFormula d t ≤ rollupFormula (d + 1) t := by
  unfold rollupFormula
  split
  · exact Nat.le_refl 0
  · exact Nat.div_le_div_right (Nat.mul_le_mul_left 100 (Nat.le_succ d))

/-- C3: for every plan tree and every single action item in it, transitioning
that item from a non-`done` status to `done` while holding everything else
fixed never decreases the Path rollup percentage, nor the rollup percentage
of the item's ancestor Phase and ancestor Step. -/
theorem c3_marking_done_never_decreases_rollup (p : Path) (i j k : Nat)
    (a : ActionItem) (ha : p.itemAt i j k = some a)
    (hnd : a.status ≠ ItemStatus.done) :
    p.calculate_progress ≤ (p.markItemDone i j k).calculate_progress
    ∧ p.phaseProgressAt i ≤ (p.markItemDone i j k).phaseProgressAt i
    ∧ p.stepProgressAt i j ≤ (p.markItemDone i j k).stepProgressAt i j := by
  unfold Path.itemAt at ha
  cases hph : p.phases.get? i with
  | none => rw [hph] at ha; simp at ha
  | some ph =>
  rw [hph] at ha
  simp only [Option.some_bind] at ha
  cases hst : ph.steps.get? j with
  | none => rw [hst] at ha; simp at ha
  | some st =>
  rw [hst] at ha
  simp only [Option.some_bind] at ha
  have hit : st.action_items.get? k = some a := ha
  have hphM : (p.markItemDone i j k).phases.get? i
      = some (ph.modifyItemAt j k setDone) := by
    show (listModify (fun ph => ph.modifyItemAt j k setDone) i p.phases).get? i = _
    rw [get?_listModify_self, hph]
    rfl
  have hstM : (ph.modifyItemAt j k setDone).steps.get? j
      = some (st.modifyItemAt k setDone) := by
    show (listModify (fun st => st.modifyItemAt k setDone) j ph.steps).get? j = _
    rw [get?_listModify_self, hst]
    rfl
  refine ⟨?_, ?_, ?_⟩
  · rw [path_progress_eq_counts, path_progress_eq_counts,
      Path.totalItems_markItemDone p i j k ph st hph hst,
      Path.doneItems_markItemDone p i j k ph st a hph hst hit hnd]
    exact rollupFormula_mono_done p.doneItems p.totalItems
  · unfold Path.phaseProgressAt
    rw [hph, hphM]
    simp only [Option.map_some', Option.getD_some]
    rw [phase_progress_eq_counts, phase_progress_eq_counts,
      phase_total_modifyItemAt ph j k setDone st hst,
      phase_done_modifyItemAt_setDone ph j k st a hst hit hnd]
    exact rollupFormula_mono_done ph.doneItems ph.totalItems
  · unfold Path.stepProgressAt
    rw [hph, hphM]
    simp only [Option.some_bind]
    rw [hst, hstM]
    simp only [Option.map_some', Option.getD_some]
    rw [step_progress_eq_counts, step_progress_eq_counts,
      step_total_modifyItemAt st k setDone,
      step_done_modifyItemAt_setDone st k a hit hnd]
    exact rollupFormula_mono_done st.doneItems st.totalItems

/-- Witness for C3 at a concrete tree: marking the remaining todo item of
`pathFix` done cannot lower any rollup. -/
theorem c3_witness :
    pathFix.calculate_progress ≤ (pathFix.markItemDone 0 0 1).calculate_progress
    ∧ pathFix.phaseProgressAt 0 ≤ (pathFix.markItemDone 0 0 1).phaseProgressAt 0
    ∧ pathFix.stepProgressAt 0 0 ≤ (pathFix.markItemDone 0 0 1).stepProgressAt 0 0 :=
  c3_marking_done_never_decreases_rollup pathFix 0 0 1 itemTodo1 (by rfl) (by decide)

/-! Factoring the rollup through the status trees (for C10). -/

theorem Step.totalItems_eq_statuses (st : Step) :
    st.totalItems = st.itemStatuses.length := by
  simp [Step.totalItems, Step.itemStatuses]

theorem Step.doneItems_eq_statuses (st : Step) :
    st.doneItems = statusDone st.itemStatuses := by
  simp only [Step.doneItems, Step.itemStatuses, statusDone, List.countP_map]
  rfl

theorem step_progress_eq_tree (st : Step) :
    st.calculate_progress
      = rollupFormula (statusDone st.itemStatuses) st.itemStatuses.length := by
  rw [step_progress_eq_counts st, st.doneItems_eq_statuses, st.totalItems_eq_statuses]

theorem phase_total_eq_tree (ph : Phase) :
    ph.totalItems = treeTotal2 ph.itemStatusTree := by
  simp only [Phase.totalItems, treeTotal2, Phase.itemStatusTree, List.map_map]
  congr 1
  exact List.map_congr_left fun st _ => st.totalItems_eq_statuses

theorem phase_done_eq_tree (ph : Phase) :
    ph.doneItems = treeDone2 ph.itemStatusTree := by
  simp only [Phase.doneItems, treeDone2, Phase.itemStatusTree, List.map_map]
  congr 1
  exact List.map_congr_left fun st _ => st.doneItems_eq_statuses

theorem phase_progress_eq_tree (ph : Phase) :
    ph.calculate_progress
      = rollupFormula (treeDone2 ph.itemStatusTree) (treeTotal2 ph.itemStatusTree) := by
  rw [phase_progress_eq_counts ph, phase_done_eq_tree ph, phase_total_eq_tree ph]

theorem path_total_eq_tree (p : Path) :
    p.totalItems = treeTotal3 p.itemStatusTree := by
  simp only [Path.totalItems, treeTotal3, Path.itemStatusTree, List.map_map]
  congr 1
  exact List.map_congr_left fun ph _ => phase_total_eq_tree ph

theorem path_done_eq_tree (p : Path) :
    p.doneItems = treeDone3 p.itemStatusTree := by
  simp only [Path.doneItems, treeDone3, Path.itemStatusTree, List.map_map]
  congr 1
  exact List.map_congr_left fun ph _ => phase_done_eq_tree ph

/-- C10: two plan trees that agree on their action items (same positions,
same statuses) but differ arbitrarily in the status fields of Phases and
Steps produce identical rollup percentages at every level: the rollup never
reads container statuses. -/
theorem c10_rollup_ignores_container_statuses (p q : Path)
    (h : p.itemStatusTree = q.itemStatusTree) :
    p.calculate_progress = q.calculate_progress
    ∧ (∀ i, p.phaseProgressAt i = q.phaseProgressAt i)
    ∧ (∀ i j, p.stepProgressAt i j = q.stepProgressAt i j) := by
  have hget : ∀ i, (p.phases.get? i).map Phase.itemStatusTree
      = (q.phases.get? i).map Phase.itemStatusTree := by
    intro i
    have := congrArg (fun t => List.get? t i) h
    simpa only [Path.itemStatusTree, List.get?_map] using this
  refine ⟨?_, ?_, ?_⟩
  · rw [path_progress_eq_counts p, path_progress_eq_counts q,
      path_total_eq_tree p, path_done_eq_tree p,
      path_total_eq_tree q, path_done_eq_tree q, h]
  · intro i
    unfold Path.phaseProgressAt
    cases hp : p.phases.get? i with
    | none =>
      cases hq : q.phases.get? i with
      | none => rfl
      | some ph2 => have hgi := hget i; rw [hp, hq] at hgi; simp at hgi
    | some ph1 =>
      cases hq : q.phases.get? i with
      | none => have hgi := hget i; rw [hp, hq] at hgi; simp at hgi
      | some ph2 =>
        have := hget i
        rw [hp, hq] at this
        simp only [Option.map_some', Option.some.injEq] at this
        simp only [Option.map_some', Option.getD_some]
        rw [phase_progress_eq_tree ph1, phase_progress_eq_tree ph2, this]
  · intro i j
    unfold Path.stepProgressAt
    cases hp : p.phases.get? i with
    | none =>
      cases hq : q.phases.get? i with
      | none => rfl
      | some ph2 => have hgi := hget i; rw [hp, hq] at hgi; simp at hgi
    | some ph1 =>
      cases hq : q.phases.get? i with
      | none => have hgi := hget i; rw [hp, hq] at hgi; simp at hgi
      | some ph2 =>
        have htr := hget i
        rw [hp, hq] at htr
        simp only [Option.map_some', Option.some.injEq] at htr
        have hsget : (ph1.steps.get? j).map Step.itemStatuses
            = (ph2.steps.get? j).map Step.itemStatuses := by
          have := congrArg (fun t => List.get? t j) htr
          simpa only [Phase.itemStatusTree, List.get?_map] using this
        simp only [Option.some_bind]
        cases hs1 : ph1.steps.get? j with
        | none =>
          cases hs2 : ph2.steps.get? j with
          | none => rfl
          | some st2 => rw [hs1, hs2] at hsget; simp at hsget
        | some st1 =>
          cases hs2 : ph2.steps.get? j with
          | none => rw [hs1, hs2] at hsget; simp at hsget
          | some st2 =>
            rw [hs1, hs2] at hsget
            simp only [Option.map_some', Option.some.injEq] at hsget
            simp only [Option.map_some', Option.getD_some]
            rw [step_progress_eq_tree st1, step_progress_eq_tree st2, hsget]

/-- Witness for C10: relabelling every container status of `pathFix` leaves
the Path rollup unchanged. -/
theorem c10_witness :
    pathFix.calculate_progress = pathFixRelabelled.calculate_progress :=
  (c10_rollup_ignores_container_statuses pathFix pathFixRelabelled (by rfl)).1

/-! Claim C4: path status transitions. -/

/-- Counterexample to C4 as stated: entering `active` from `completed` with
a stale `paused_at` (reachable via `on_hold → completed`), the code clears
`paused_at`, while the claim's side-effect list, which clears it only when
coming from `on_hold`, keeps it. -/
theorem c4_counterexample :
    applyStatusUpdate pathCompletedPaused PathStatus.active 10
      ≠ claimedStatusUpdate pathCompletedPaused PathStatus.active 10 := by
  decide

/-- C4 (amended): `update_status` re-entering `active` from `active`
changes no timestamp; entering `active` from any other status stamps
`started_at` only when unset and clears `paused_at` whatever the previous
status; `on_hold` stamps `paused_at`; `completed` stamps `completed_at`;
`archived` changes no timestamp; every transition is permitted. -/
theorem c4_status_update_side_effects (p : Path) (new : PathStatus) (now : Int) :
    applyStatusUpdate p new now = amendedStatusUpdate p new now := by
  cases new <;> cases hp : p.status <;>
    simp [applyStatusUpdate, amendedStatusUpdate, hp]

/-! Claim C7: invalid status strings are rejected without any state
change. -/

/-- C7: a status-update request whose status lies outside the closed
enumeration produces no response payload and leaves the stored path
completely unchanged. -/
theorem c7_invalid_status_rejected_unchanged (p : Path) (raw : String)
    (now : Int) (h1 : raw ≠ "active") (h2 : raw ≠ "on_hold")
    (h3 : raw ≠ "completed") (h4 : raw ≠ "archived") :
    update_status_endpoint p raw now = (none, p) := by
  unfold update_status_endpoint parsePathStatus
  simp [h1, h2, h3, h4]

/-- Witness for C7: the string `draft` (a status of the other repository
variant) is rejected and `pathFix` is untouched. -/
theorem c7_witness : update_status_endpoint pathFix "draft" 0 = (none, pathFix) :=
  c7_invalid_status_rejected_unchanged pathFix "draft" 0
    (by decide) (by decide) (by decide) (by decide)

/-! Claim C8: `completed_at` is set iff status is `done`. -/

/-- Counterexample to C8 as stated: the plain serializer create accepts
`status = done` together with `completed_at = null` (both are independently
writable fields), violating the biconditional through the public create
operation. -/
theorem c8_counterexample :
    ¬ completedAtConsistent
      (actionItemSerializerCreate 7 "imported row" ItemStatus.done none none 0) := by
  unfold completedAtConsistent actionItemSerializerCreate
  decide

/-- C8 (amended): the dedicated status operations `toggle_status` and
`update_status` always establish the biconditional, stamping
`completed_at = now` exactly when they set `done` and clearing it
otherwise; the generic serializer create/update, however, writes `status`
and `completed_at` independently and can violate it. -/
theorem c8_status_operations_keep_completed_at_consistent (a : ActionItem)
    (st : ItemStatus) (now : Int) :
    completedAtConsistent (a.toggle_status now)
    ∧ completedAtConsistent (a.update_status st now) := by
  constructor
  · unfold ActionItem.toggle_status completedAtConsistent
    by_cases h : a.status = ItemStatus.done <;> simp [h]
  · unfold ActionItem.update_status completedAtConsistent
    by_cases h : st = ItemStatus.done <;> simp [h]

/-! Claim C2: when the stored percentage is recomputed. -/

theorem Path.update_progress_consistent (q : Path) :
    q.update_progress.progress_percentage
      = q.update_progress.calculate_progress := rfl

/-- Counterexample to C2 as stated: deleting the remaining todo item of
`pathFix` (consistently stored at 50%) leaves the stored percentage at 50
while the rollup over the surviving leaves is 100 — no rollup runs on
delete. -/
theorem c2_counterexample :
    (deleteActionItem pathFix 0 0 1).progress_percentage
      ≠ (deleteActionItem pathFix 0 0 1).calculate_progress := by
  decide

/-- C2 (amended): creating or updating an action item recomputes and
persists the owning path's percentage before the call returns (via
`ActionItem.save`), but deleting one runs no rollup and leaves the stored
percentage exactly as it was. -/
theorem c2_rollup_persisted_on_save_but_not_delete (p : Path) (i j k : Nat)
    (a : ActionItem) (f : ActionItem → ActionItem) :
    (createActionItem p i j a).progress_percentage
      = (createActionItem p i j a).calculate_progress
    ∧ (updateActionItem p i j k f).progress_percentage
      = (updateActionItem p i j k f).calculate_progress
    ∧ (deleteActionItem p i j k).progress_percentage = p.progress_percentage :=
  ⟨Path.update_progress_consistent _, Path.update_progress_consistent _, rfl⟩

/-! Claim C9: the bulk status update (modelled from the spec). -/

theorem allActionItems_bulkUpdate (p : Path) (ids : List Nat) (st : ItemStatus)
    (now : Int) :
    (bulkUpdateActionItemStatus p ids st now).2.allActionItems
      = p.allActionItems.map (bulkApplyOne ids st now) := by
  show ((({ p with phases := p.phases.map (bulkApplyPhase ids st now) } : Path)).update_progress).allActionItems = _
  unfold Path.allActionItems Path.update_progress bulkApplyPhase bulkApplyStep
  simp [List.flatMap_map, List.map_flatMap]

/-- C9: the bulk update touches exactly the path's own leaves whose id is
requested (foreign identifiers are ignored without error), runs one rollup
whose result is both persisted and returned, and reports the count of
leaves actually updated; on the concrete fixture, requesting ids 1, 2 and
the foreign 99 updates two of three leaves and recomputes 66%. -/
theorem c9_bulk_update_confined_to_path :
    (∀ (p : Path) (ids : List Nat) (st : ItemStatus) (now : Int),
      ((bulkUpdateActionItemStatus p ids st now).1.1
          = p.allActionItems.countP fun a => ids.contains a.id)
      ∧ ((bulkUpdateActionItemStatus p ids st now).2.allActionItems
          = p.allActionItems.map (bulkApplyOne ids st now))
      ∧ (∀ a, ids.contains a.id = false → bulkApplyOne ids st now a = a)
      ∧ ((bulkUpdateActionItemStatus p ids st now).1.2
          = (bulkUpdateActionItemStatus p ids st now).2.progress_percentage)
      ∧ ((bulkUpdateActionItemStatus p ids st now).2.progress_percentage
          = (bulkUpdateActionItemStatus p ids st now).2.calculate_progress))
    ∧ (bulkUpdateActionItemStatus pathBulk [1, 2, 99] ItemStatus.done 10).1
        = (2, 66) := by
  constructor
  · intro p ids st now
    refine ⟨rfl, allActionItems_bulkUpdate p ids st now, ?_, rfl, rfl⟩
    intro a ha
    have ha2 : ¬ (a.id ∈ ids) := by simpa using ha
    simp [bulkApplyOne, ha2]
  · decide

/-! Claim C5: the keyword router. -/

/-- C5: the responder case-folds the query and returns the template of the
first category, in declaration order, whose keyword set intersects the
query; a query containing both `status` and `block` gets the
status-overview template and a query matching nothing gets the default
template. -/
theorem c5_first_matching_category_wins :
    (∀ q : String,
      ai_query_route q = firstMatchingCategory q.toLower keywordCategories)
    ∧ generate_ai_response "status of blocked items"
        = ResponseCategory.statusOverview
    ∧ generate_ai_response "zzz" = ResponseCategory.defaultResponse := by
  refine ⟨fun q => rfl, by decide, by decide⟩

/-! Claim C6: the overdue and upcoming sets of the context builder. -/

/-- C6: an action item is overdue iff it has a due date strictly before
today and is not done; it is upcoming iff it has a due date and is not done
(so overdue ⊆ upcoming); the upcoming list is sorted ascending by due date;
and on the fixture, the item due yesterday with status `todo` is in both
sets while the `done` one is in neither. -/
theorem c6_overdue_and_upcoming_sets :
    (∀ (p : Path) (today : Int) (a : ActionItem),
      a ∈ contextOverdue p today
        ↔ a ∈ p.allActionItems
          ∧ (∃ d, a.due_date = some d ∧ d < today)
          ∧ a.status ≠ ItemStatus.done)
    ∧ (∀ (p : Path) (today : Int) (a : ActionItem),
      a ∈ contextUpcoming p today
        ↔ a ∈ p.allActionItems ∧ a.due_date.isSome
          ∧ a.status ≠ ItemStatus.done)
    ∧ (∀ (p : Path) (today : Int) (a : ActionItem),
      a ∈ contextOverdue p today → a ∈ contextUpcoming p today)
    ∧ (∀ (p : Path) (today : Int),
      (contextUpcoming p today).Pairwise
        fun a b => dueKey today a ≤ dueKey today b)
    ∧ (itemDueYesterdayTodo ∈ contextOverdue pathDueFix 100
        ∧ itemDueYesterdayTodo ∈ contextUpcoming pathDueFix 100)
    ∧ (itemDueYesterdayDone ∉ contextOverdue pathDueFix 100
        ∧ itemDueYesterdayDone ∉ contextUpcoming pathDueFix 100) := by
  have hover : ∀ (p : Path) (today : Int) (a : ActionItem),
      a ∈ contextOverdue p today
        ↔ a ∈ p.allActionItems
          ∧ (∃ d, a.due_date = some d ∧ d < today)
          ∧ a.status ≠ ItemStatus.done := by
    intro p today a
    unfold contextOverdue isOverdueItem isOpenWithDueDate
    rw [List.mem_filter]
    cases hd : a.due_date with
    | none => simp [hd]
    | some d =>
      simp [hd, isDoneItem]
      tauto
  have hup : ∀ (p : Path) (today : Int) (a : ActionItem),
      a ∈ contextUpcoming p today
        ↔ a ∈ p.allActionItems ∧ a.due_date.isSome
          ∧ a.status ≠ ItemStatus.done := by
    intro p today a
    unfold contextUpcoming contextUpcomingUnsorted isOpenWithDueDate
    rw [List.mem_mergeSort, List.mem_filter]
    cases hd : a.due_date <;> simp [hd]
  refine ⟨hover, hup, ?_, ?_, ?_, ?_⟩
  · intro p today a h
    rw [hover] at h
    rw [hup]
    obtain ⟨hmem, ⟨d, hd, _⟩, hnd⟩ := h
    exact ⟨hmem, by simp [hd], hnd⟩
  · intro p today
    unfold contextUpcoming
    refine List.Pairwise.imp ?_ (List.sorted_mergeSort ?_ ?_ (contextUpcomingUnsorted p))
    · intro a b hab
      simpa using hab
    · intro a b c hab hbc
      simp only [decide_eq_true_eq] at hab hbc ⊢
      exact le_trans hab hbc
    · intro a b
      simp only [Bool.or_eq_true, decide_eq_true_eq]
      exact le_total _ _
  · constructor
    · decide
    · rw [hup]
      decide
  · constructor
    · decide
    · rw [hup]
      decide

end JotPotato
